import Mathlib

/-! SkyrimOnline: the per-peer connection (`Code/network/src/BoostConnection.cpp`)

A shallow embedding of `BoostConnection`: the object's members become the fields of a
structure, every member function becomes a function on that structure, and the two things
the object talks to (its socket and the `io_service` it submits work to) are recorded in
two extra fields: the list of asynchronous operations submitted and not yet completed, and
the count of `m_socket.close()` calls.

Bytes are natural numbers, byte buffers are lists of them.  Code that is not part of the
file (CryptoPP, the key agreement object, `ReadBuffer`/`WriteBuffer`, `BoostServer::Serialize`)
is collected in `Env` and every function that uses it takes it as an argument.
-/

namespace SkyrimOnline

/-- A `Salsa20::Encryption` object: a stream cipher keyed by `key` and `iv` that has already
consumed `pos` bytes of its keystream. -/
structure Salsa20 where
  key : List Nat
  iv : List Nat
  pos : Nat
deriving DecidableEq, Repr

/-- The completion handlers a read can be bound to. -/
inductive ReadHandler where
  | HandleReadHeader
  | HandleReadBody
  | HandleReadEncryptionHeader
  | HandleReadEncryptionBody
deriving DecidableEq, Repr

/-- An asynchronous operation handed to the `io_service`, still waiting for its handler. -/
inductive AsyncOp where
  | async_resolve
  | async_connect
  | async_read (size : Nat) (handler : ReadHandler)
  | async_write (data : List Nat)
  | post_DoWrite
deriving DecidableEq, Repr

/-- The code `BoostConnection.cpp` calls and does not contain. -/
structure Env where
  /-- `SHA256().CalculateDigest` -/
  sha256 : List Nat → List Nat
  /-- The Salsa20 keystream byte for a key, an iv and a position in the stream. -/
  keystream : List Nat → List Nat → Nat → Nat
  /-- `KeyAgreement::Agree` on what is left of a `ReadBuffer`; empty on failure. -/
  Agree : List Nat → List Nat
  /-- `KeyAgreement::Serialize`: the local 128-byte exchange payload. -/
  keyPayload : List Nat
  /-- `BoostServer::Serialize(WriteBuffer*)`: frames the content of a `WriteBuffer`. -/
  SerializeBuffer : List Nat → List Nat
  /-- `BoostServer::Serialize(std::string)`: frames a string. -/
  SerializeString : List Nat → List Nat
  /-- `WriteBuffer::Write_uint8` -/
  Write_uint8 : List Nat → Nat → List Nat
  /-- `WriteBuffer::Write_uint32` -/
  Write_uint32 : List Nat → Nat → List Nat
  /-- `WriteBuffer::WriteRaw` -/
  WriteRaw : List Nat → List Nat → List Nat
  /-- `ReadBuffer::Read_uint8`: the value read and what is left of the buffer. -/
  Read_uint8 : List Nat → Nat × List Nat
  /-- `ReadBuffer::Read_uint32`: the value read and what is left of the buffer. -/
  Read_uint32 : List Nat → Nat × List Nat

/-- Modelled from the spec: `sizeof(m_incomingLength)`; the member is declared in
`BoostConnection.h`, which is missing, and the wire format gives the length header 4 bytes. -/
def sizeofIncomingLength : Nat := 4

/-- The members of `BoostConnection`, followed by the two fields that record what the object
did to its socket and its `io_service`.  A `nullptr` is `none`; time points are integers.
The members are declared in `BoostConnection.h`, which is missing: `m_outstandingTasks` is
an integer here, so that a decrement below zero shows as a negative count, and
`m_incomingLength` is an unsigned length. -/
structure BoostConnection where
  m_id : Nat
  m_connected : Bool
  m_markedForDelete : Bool
  m_writeInProgress : Bool
  m_encrypted : Bool
  m_outstandingTasks : Int
  m_pEncryption : Option Salsa20
  m_pDecryption : Option Salsa20
  m_outgoingQueue : List (List Nat)
  m_incomingQueue : List (Option (List Nat))
  m_incomingLength : Nat
  m_buffer : List Nat
  m_lastEvent : Int
  /-- operations submitted to the `io_service` whose handler has not run yet, oldest first -/
  io_pending : List AsyncOp
  /-- number of `m_socket.close()` calls so far -/
  socket_closes : Nat
deriving DecidableEq, Repr

/-- `BoostConnection::BoostConnection` -/
def BoostConnection.new (aId : Nat) : BoostConnection :=
  { m_id := aId
    m_connected := false
    m_markedForDelete := false
    m_writeInProgress := false
    m_encrypted := false
    m_outstandingTasks := 0
    m_pEncryption := none
    m_pDecryption := none
    m_outgoingQueue := []
    m_incomingQueue := []
    m_incomingLength := 0
    m_buffer := []
    m_lastEvent := 0
    io_pending := []
    socket_closes := 0 }

/-- Submitting an operation to the `io_service`. -/
def submit (s : BoostConnection) (op : AsyncOp) : BoostConnection :=
  { s with io_pending := s.io_pending ++ [op] }

/-- `Salsa20::ProcessData` on `data`: byte `i` is xor-ed with the keystream byte at position
`pos + i`; returns the output and the advanced cipher. -/
def ProcessData (env : Env) (c : Salsa20) (data : List Nat) : List Nat × Salsa20 :=
  ((List.range data.length).zipWith (fun i b => b ^^^ env.keystream c.key c.iv (c.pos + i)) data,
   { c with pos := c.pos + data.length })

/-- `std::vector::resize`: truncates, or pads with zero bytes. -/
def resize (buf : List Nat) (n : Nat) : List Nat :=
  buf.take n ++ List.replicate (n - buf.length) 0

/-- `BoostConnection::Connect` -/
def Connect (s : BoostConnection) : BoostConnection :=
  submit s AsyncOp.async_resolve

/-- `BoostConnection::Write` -/
def Write (s : BoostConnection) (apBuffer : List Nat) : BoostConnection :=
  if !s.m_connected then s
  else
    let empty := s.m_outgoingQueue.isEmpty
    let s1 := { s with m_outgoingQueue := s.m_outgoingQueue ++ [apBuffer] }
    if empty && s1.m_writeInProgress == false then
      submit { s1 with m_writeInProgress := true
                       m_outstandingTasks := s1.m_outstandingTasks + 1 } AsyncOp.post_DoWrite
    else s1

/-- `BoostConnection::Close` -/
def Close (s : BoostConnection) : BoostConnection :=
  if s.m_connected then
    { s with m_connected := false, socket_closes := s.socket_closes + 1 }
  else s

/-- `BoostConnection::HandleWrite`; `none` when `pop` is called on an empty queue. -/
def HandleWrite (s : BoostConnection) (aError : Bool) : Option BoostConnection :=
  let s1 := { s with m_outstandingTasks := s.m_outstandingTasks - 1 }
  if !aError then
    match s1.m_outgoingQueue with
    | [] => none
    | _ :: rest =>
      let s2 := { s1 with m_outgoingQueue := rest }
      if !rest.isEmpty then
        some (submit { s2 with m_outstandingTasks := s2.m_outstandingTasks + 1 }
          AsyncOp.post_DoWrite)
      else
        some { s2 with m_writeInProgress := false }
  else
    some (Close s1)

/-- `BoostConnection::IsEncrypted` -/
def IsEncrypted (s : BoostConnection) : Bool :=
  s.m_encrypted

/-- `BoostConnection::DoWrite`; `none` when `front` is called on an empty queue, or when the
payload at offset 4 is taken of a frame shorter than 4 bytes. -/
def DoWrite (env : Env) (s : BoostConnection) : Option BoostConnection :=
  match s.m_outgoingQueue with
  | [] => none
  | front :: rest =>
    match s.m_pEncryption with
    | some pEncryptor =>
      if IsEncrypted s then
        if front.length < 4 then none
        else
          let r := ProcessData env pEncryptor (front.drop 4)
          let front1 := front.take 4 ++ r.1
          some (submit { s with m_pEncryption := some r.2
                                m_outgoingQueue := front1 :: rest }
            (AsyncOp.async_write front1))
      else some (submit s (AsyncOp.async_write front))
    | none => some (submit s (AsyncOp.async_write front))

/-- `BoostConnection::Consume` at time `now`: the returned flag, `apBuffer`, the new state. -/
def Consume (s : BoostConnection) (now : Int) : Bool × Option (List Nat) × BoostConnection :=
  match s.m_incomingQueue with
  | front :: rest => (true, front, { s with m_lastEvent := now, m_incomingQueue := rest })
  | [] => (false, none, s)

/-- `BoostConnection::IsConnected` at time `now`: the returned flag and the new state. -/
def IsConnected (s : BoostConnection) (now : Int) : Bool × BoostConnection :=
  let sec := now - s.m_lastEvent
  let s1 := if sec > 500 then Close s else s
  (s1.m_connected, s1)

/-- `BoostConnection::SetSharedSecret`; the two ivs are the 8 bytes at offset 0 and at
offset 8 of the secret. -/
def SetSharedSecret (env : Env) (s : BoostConnection) (acSharedSecret : List Nat)
    (aClient : Bool) : BoostConnection :=
  let key := env.sha256 acSharedSecret
  if aClient then
    { s with m_pEncryption := some ⟨key, acSharedSecret.take 8, 0⟩
             m_pDecryption := some ⟨key, (acSharedSecret.drop 8).take 8, 0⟩ }
  else
    { s with m_pEncryption := some ⟨key, (acSharedSecret.drop 8).take 8, 0⟩
             m_pDecryption := some ⟨key, acSharedSecret.take 8, 0⟩ }

/-- `BoostConnection::EnableEncryption` -/
def EnableEncryption (s : BoostConnection) : BoostConnection :=
  { s with m_encrypted := true }

/-- `BoostConnection::Read` -/
def Read (s : BoostConnection) : BoostConnection :=
  submit { s with m_outstandingTasks := s.m_outstandingTasks + 1 }
    (AsyncOp.async_read sizeofIncomingLength ReadHandler.HandleReadHeader)

/-- `BoostConnection::Accept` at time `now` -/
def Accept (s : BoostConnection) (now : Int) : BoostConnection :=
  Read { s with m_connected := true, m_lastEvent := now }

/-- `BoostConnection::HandleReadHeader` -/
def HandleReadHeader (s : BoostConnection) (aError : Bool) (aBytesRead : Nat) :
    BoostConnection :=
  let s1 := { s with m_outstandingTasks := s.m_outstandingTasks - 1 }
  if aError || aBytesRead != sizeofIncomingLength || s1.m_incomingLength ≥ 0x2000 then
    Close s1
  else
    let s2 := { s1 with m_outstandingTasks := s1.m_outstandingTasks + 1 }
    let s3 := { s2 with m_buffer := resize s2.m_buffer s2.m_incomingLength }
    submit s3 (AsyncOp.async_read s3.m_incomingLength ReadHandler.HandleReadBody)

/-- `BoostConnection::HandleHandshake` on the content of a `ReadBuffer` -/
def HandleHandshake (env : Env) (s : BoostConnection) (apBuffer : List Nat) :
    BoostConnection :=
  let r := env.Read_uint8 apBuffer
  let type := r.1
  if type = 0 then
    let sharedSecret := env.Agree r.2
    if sharedSecret.length = 0 then Close s
    else
      let s1 := SetSharedSecret env s sharedSecret false
      let buffer := env.keyPayload
      Write s1 (env.SerializeString buffer)
  else if type = 1 then
    let magic := (env.Read_uint32 r.2).1
    if magic = 0x12345678 then
      let s1 := EnableEncryption s
      { s1 with m_incomingQueue := s1.m_incomingQueue ++ [none] }
    else Close s
  else Close s

/-- `BoostConnection::HandleReadBody` -/
def HandleReadBody (env : Env) (s : BoostConnection) (aError : Bool) (aBytesRead : Nat) :
    BoostConnection :=
  let s1 := { s with m_outstandingTasks := s.m_outstandingTasks - 1 }
  if aError || aBytesRead != s1.m_incomingLength then Close s1
  else
    match s1.m_pDecryption with
    | some pDecryptor =>
      if IsEncrypted s1 then
        let r := ProcessData env pDecryptor s1.m_buffer
        let s2 := { s1 with m_pDecryption := some r.2, m_buffer := r.1 }
        Read { s2 with m_incomingQueue := s2.m_incomingQueue ++ [some s2.m_buffer] }
      else Read (HandleHandshake env s1 s1.m_buffer)
    | none => Read (HandleHandshake env s1 s1.m_buffer)

/-- `BoostConnection::StartEncryptionHandshake` -/
def StartEncryptionHandshake (env : Env) (s : BoostConnection) : BoostConnection :=
  let buffer := env.keyPayload
  let wbuffer := env.WriteRaw (env.Write_uint8 [] 0) buffer
  let s1 := Write s (env.SerializeBuffer wbuffer)
  submit { s1 with m_outstandingTasks := s1.m_outstandingTasks + 1 }
    (AsyncOp.async_read sizeofIncomingLength ReadHandler.HandleReadEncryptionHeader)

/-- `BoostConnection::HandleConnect` -/
def HandleConnect (env : Env) (s : BoostConnection) (pError : Bool) : BoostConnection :=
  let s1 := { s with m_outstandingTasks := s.m_outstandingTasks - 1 }
  if !pError then
    StartEncryptionHandshake env { s1 with m_connected := true }
  else Close s1

/-- `BoostConnection::HandleResolve` -/
def HandleResolve (s : BoostConnection) (aError : Bool) : BoostConnection :=
  let s1 := { s with m_outstandingTasks := s.m_outstandingTasks - 1 }
  if !aError then
    submit { s1 with m_outstandingTasks := s1.m_outstandingTasks + 1 } AsyncOp.async_connect
  else Close s1

/-- `BoostConnection::HandleReadEncryptionHeader` -/
def HandleReadEncryptionHeader (s : BoostConnection) (aError : Bool) (aBytesRead : Nat) :
    BoostConnection :=
  let s1 := { s with m_outstandingTasks := s.m_outstandingTasks - 1 }
  if aError || aBytesRead != sizeofIncomingLength || s1.m_incomingLength != 128 then
    Close s1
  else
    let s2 := { s1 with m_outstandingTasks := s1.m_outstandingTasks + 1 }
    let s3 := { s2 with m_buffer := resize s2.m_buffer s2.m_incomingLength }
    submit s3 (AsyncOp.async_read s3.m_incomingLength ReadHandler.HandleReadEncryptionBody)

/-- `BoostConnection::HandleReadEncryptionBody` -/
def HandleReadEncryptionBody (env : Env) (s : BoostConnection) (aError : Bool)
    (aBytesRead : Nat) : BoostConnection :=
  let s1 := { s with m_outstandingTasks := s.m_outstandingTasks - 1 }
  if aError || aBytesRead != s1.m_incomingLength then Close s1
  else
    let sharedSecret := env.Agree s1.m_buffer
    if sharedSecret.length = 0 then Close s1
    else
      let s2 := SetSharedSecret env s1 sharedSecret true
      let wbuffer := env.Write_uint32 (env.Write_uint8 [] 1) 0x12345678
      let frame := env.SerializeBuffer wbuffer
      let s3 := { s2 with m_outgoingQueue := s2.m_outgoingQueue ++ [frame] }
      let s4 := { s3 with m_writeInProgress := true }
      let s5 := submit s4 (AsyncOp.async_write (s4.m_outgoingQueue.headD frame))
      let s6 := EnableEncryption s5
      Read { s6 with m_incomingQueue := s6.m_incomingQueue ++ [none] }

/-! ## The reactor

The `io_service` runs a handler only for an operation that was submitted, and removes the
operation when it does.  A read completion first stores what it received: a header read in
`m_incomingLength`, a body read in the first bytes of `m_buffer`. -/

/-- What can happen to a connection: a call of its public interface, or the `io_service`
running the handler of a pending operation. -/
inductive Event where
  | Connect
  | Accept (now : Int)
  | Write (apBuffer : List Nat)
  | Consume (now : Int)
  | IsConnected (now : Int)
  | Close
  | HandleResolve (aError : Bool)
  | HandleConnect (pError : Bool)
  | HandleReadHeader (aError : Bool) (aBytesRead : Nat) (length : Nat)
  | HandleReadBody (size : Nat) (aError : Bool) (data : List Nat)
  | HandleReadEncryptionHeader (aError : Bool) (aBytesRead : Nat) (length : Nat)
  | HandleReadEncryptionBody (size : Nat) (aError : Bool) (data : List Nat)
  | HandleWrite (data : List Nat) (aError : Bool)
  | DoWrite
deriving DecidableEq, Repr

/-- Takes a pending operation off the list; `none` when it was never submitted. -/
def complete (s : BoostConnection) (op : AsyncOp) : Option BoostConnection :=
  if op ∈ s.io_pending then some { s with io_pending := s.io_pending.erase op } else none

/-- A body read stores the bytes it received at the start of `m_buffer`. -/
def store (buf data : List Nat) : List Nat :=
  data ++ buf.drop data.length

/-- One event on a connection; `none` when the event cannot happen in this state (no such
pending operation, more bytes than asked for) or when the handler's behaviour is undefined. -/
def step (env : Env) (s : BoostConnection) : Event → Option BoostConnection
  | Event.Connect => some (Connect s)
  | Event.Accept now => some (Accept s now)
  | Event.Write apBuffer => some (Write s apBuffer)
  | Event.Consume now => some (Consume s now).2.2
  | Event.IsConnected now => some (IsConnected s now).2
  | Event.Close => some (Close s)
  | Event.HandleResolve aError =>
    (complete s AsyncOp.async_resolve).map fun s1 => HandleResolve s1 aError
  | Event.HandleConnect pError =>
    (complete s AsyncOp.async_connect).map fun s1 => HandleConnect env s1 pError
  | Event.HandleReadHeader aError aBytesRead length =>
    if aBytesRead ≤ sizeofIncomingLength then
      (complete s (AsyncOp.async_read sizeofIncomingLength ReadHandler.HandleReadHeader)).map
        fun s1 => HandleReadHeader { s1 with m_incomingLength := length } aError aBytesRead
    else none
  | Event.HandleReadBody size aError data =>
    if data.length ≤ size then
      (complete s (AsyncOp.async_read size ReadHandler.HandleReadBody)).map
        fun s1 => HandleReadBody env { s1 with m_buffer := store s1.m_buffer data } aError
          data.length
    else none
  | Event.HandleReadEncryptionHeader aError aBytesRead length =>
    if aBytesRead ≤ sizeofIncomingLength then
      (complete s
        (AsyncOp.async_read sizeofIncomingLength ReadHandler.HandleReadEncryptionHeader)).map
        fun s1 => HandleReadEncryptionHeader { s1 with m_incomingLength := length } aError
          aBytesRead
    else none
  | Event.HandleReadEncryptionBody size aError data =>
    if data.length ≤ size then
      (complete s (AsyncOp.async_read size ReadHandler.HandleReadEncryptionBody)).map
        fun s1 => HandleReadEncryptionBody env { s1 with m_buffer := store s1.m_buffer data }
          aError data.length
    else none
  | Event.HandleWrite data aError =>
    (complete s (AsyncOp.async_write data)).bind fun s1 => HandleWrite s1 aError
  | Event.DoWrite =>
    (complete s AsyncOp.post_DoWrite).bind fun s1 => DoWrite env s1

/-- A sequence of events, oldest first. -/
def run (env : Env) (s : BoostConnection) : List Event → Option BoostConnection
  | [] => some s
  | ev :: evs => (step env s ev).bind fun s1 => run env s1 evs

/-- The states a connection can be in: those a freshly constructed one gets to by events. -/
inductive Reachable (env : Env) : BoostConnection → Prop where
  | new (aId : Nat) : Reachable env (BoostConnection.new aId)
  | step {s s1 : BoostConnection} (ev : Event) :
      Reachable env s → step env s ev = some s1 → Reachable env s1

/-- Low-level writes in flight on the socket. -/
def writesInFlight (s : BoostConnection) : Nat :=
  (s.io_pending.filter fun op =>
    match op with
    | AsyncOp.async_write _ => true
    | _ => false).length

/-- The write pipeline's invariant: a non-empty outgoing queue has a write in progress. -/
def QueueCovered (s : BoostConnection) : Prop :=
  s.m_outgoingQueue ≠ [] → s.m_writeInProgress = true

/-- Payloads pushed through one cipher one after the other. -/
def processAll (env : Env) (c : Salsa20) : List (List Nat) → List (List Nat)
  | [] => []
  | p :: ps => (ProcessData env c p).1 :: processAll env (ProcessData env c p).2 ps

/-- `n` calls of `Consume` at time `now`: what each call returned, and the final state. -/
def consumeMany (s : BoostConnection) (now : Int) :
    Nat → List (Bool × Option (List Nat)) × BoostConnection
  | 0 => ([], s)
  | n + 1 =>
    let r := Consume s now
    let rest := consumeMany r.2.2 now n
    ((r.1, r.2.1) :: rest.1, rest.2)

/-- Little-endian bytes of a 32-bit value. -/
def le32 (v : Nat) : List Nat :=
  [v % 256, v / 256 % 256, v / 65536 % 256, v / 16777216 % 256]

/-- A stand-in for the collaborators, for running the handlers on concrete input: the digest
is the first 32 bytes, agreement returns the first 16 bytes of the peer payload, buffers are
byte strings with little-endian integers, and a frame is a length header and the payload. -/
def sampleEnv : Env :=
  { sha256 := fun m => m.take 32
    keystream := fun key iv pos => (key.sum + iv.sum + pos) % 256
    Agree := fun peer => peer.take 16
    keyPayload := List.replicate 128 7
    SerializeBuffer := fun b => le32 b.length ++ b
    SerializeString := fun b => le32 b.length ++ b
    Write_uint8 := fun b v => b ++ [v % 256]
    Write_uint32 := fun b v => b ++ le32 v
    WriteRaw := fun b raw => b ++ raw
    Read_uint8 := fun b => (b.headD 0, b.tail)
    Read_uint32 := fun b =>
      (b.getD 0 0 + 256 * b.getD 1 0 + 65536 * b.getD 2 0 + 16777216 * b.getD 3 0, b.drop 4) }

/-- The initiator's first handshake frame as `sampleEnv` builds it: type 0 and the payload. -/
def sampleHello : List Nat :=
  le32 129 ++ [0] ++ List.replicate 128 7

/-- The initiator's confirmation frame as `sampleEnv` builds it: type 1 and the magic. -/
def sampleConfirm : List Nat :=
  le32 5 ++ [1] ++ le32 0x12345678

/-- The initiator's path up to the confirmation, the peer's 128 bytes arriving while the
write of the first handshake frame has not completed yet. -/
def earlyReplyTrace : List Event :=
  [Event.Connect, Event.HandleResolve false, Event.HandleConnect false, Event.DoWrite,
   Event.HandleReadEncryptionHeader false 4 128,
   Event.HandleReadEncryptionBody 128 false (List.replicate 128 9)]

/-- The initiator's path with every completion in the order of submission. -/
def orderlyTrace : List Event :=
  [Event.Connect, Event.HandleResolve false, Event.HandleConnect false, Event.DoWrite,
   Event.HandleWrite sampleHello false,
   Event.HandleReadEncryptionHeader false 4 128,
   Event.HandleReadEncryptionBody 128 false (List.replicate 128 9),
   Event.HandleWrite sampleConfirm false]

/-- A responder's first frame from a peer that skips the key exchange: the confirmation
(type 1 and the magic) right after `Accept`. -/
def confirmFirstTrace : List Event :=
  [Event.Accept 0, Event.HandleReadHeader false 4 5,
   Event.HandleReadBody 5 false [1, 0x78, 0x56, 0x34, 0x12]]

end SkyrimOnline

/-! ## `Skyrim::Vector` (`Code/skyrimonline/include/Types.h`) -/

namespace Skyrim

/-- `Skyrim::Vector<T>`: `data` is the array the pointer refers to (empty for `nullptr`),
`capacity` and `size` are `uint32_t`, kept below 2^32 by reducing modulo 2^32. -/
structure Vector (T : Type) where
  data : List T
  capacity : Nat
  size : Nat
deriving DecidableEq, Repr

/-- `Vector::Vector` -/
def Vector.new {T : Type} : Vector T :=
  { data := [], capacity := 0, size := 0 }

/-- `Vector::operator[]`: the element, the exception thrown outside the size, or `none` when
the read is outside the array. -/
def Vector.subscript {T : Type} (v : Vector T) (pIndex : Nat) : Option (Except String T) :=
  if pIndex < v.size then v.data[pIndex]?.map Except.ok
  else some (Except.error "Out of range !")

/-- The loop of `Vector::Remove`, `for (...; i < size - 1; ++i) data[i] = data[i + 1]`, with
`bound` for `size - 1`, from `i` on, at most `fuel` iterations; `none` when an iteration reads
or writes outside the array. -/
def Vector.shift {T : Type} (bound : Nat) : Nat → Nat → List T → Option (List T)
  | 0, _, data => some data
  | fuel + 1, i, data =>
    if i < bound then
      match data[(i + 1) % 4294967296]? with
      | some x =>
        if i < data.length then
          Vector.shift bound fuel ((i + 1) % 4294967296) (data.set i x)
        else none
      | none => none
    else some data

/-- `Vector::Remove`; the loop gets one unit of fuel for every index from `pIndex` up to
`size - 1`, which is as many iterations as it can make. -/
def Vector.Remove {T : Type} (v : Vector T) (pIndex : Nat) : Option (Vector T) :=
  if pIndex > v.size then some v
  else
    let bound := (v.size + 4294967296 - 1) % 4294967296
    match Vector.shift bound (bound - pIndex) pIndex v.data with
    | some data => some { v with data := data, size := (v.size + 4294967296 - 1) % 4294967296 }
    | none => none

end Skyrim

namespace SkyrimOnline

/-! ## Helper lemmas -/

theorem Close_outgoingQueue (s : BoostConnection) :
    (Close s).m_outgoingQueue = s.m_outgoingQueue := by
  unfold Close; split <;> rfl

theorem Close_writeInProgress (s : BoostConnection) :
    (Close s).m_writeInProgress = s.m_writeInProgress := by
  unfold Close; split <;> rfl

theorem Close_connected (s : BoostConnection) : (Close s).m_connected = false := by
  unfold Close; split
  · rfl
  · simpa using ‹¬ s.m_connected = true›

theorem QueueCovered_of_eq {s s1 : BoostConnection} (h : QueueCovered s)
    (hq : s1.m_outgoingQueue = s.m_outgoingQueue)
    (hw : s1.m_writeInProgress = s.m_writeInProgress) : QueueCovered s1 := by
  unfold QueueCovered at *
  rw [hq, hw]; exact h

theorem QueueCovered_Close {s : BoostConnection} (h : QueueCovered s) :
    QueueCovered (Close s) :=
  QueueCovered_of_eq h (Close_outgoingQueue s) (Close_writeInProgress s)

theorem QueueCovered_Write {s : BoostConnection} (h : QueueCovered s) (b : List Nat) :
    QueueCovered (Write s b) := by
  unfold QueueCovered at *
  unfold Write submit
  cases hc : s.m_connected <;> cases hw : s.m_writeInProgress <;>
    cases hq : s.m_outgoingQueue <;> simp_all

theorem QueueCovered_HandleWrite {s s1 : BoostConnection} (h : QueueCovered s) (e : Bool)
    (hs : HandleWrite s e = some s1) : QueueCovered s1 := by
  unfold HandleWrite at hs
  cases e
  · cases hq : s.m_outgoingQueue with
    | nil => simp [hq] at hs
    | cons f rest =>
      have hw : s.m_writeInProgress = true := h (by simp [hq])
      cases rest with
      | nil =>
        simp [hq] at hs
        subst hs
        simp [QueueCovered]
      | cons g more =>
        simp [hq, submit] at hs
        subst hs
        simp [QueueCovered, hw]
  · simp at hs
    subst hs
    exact QueueCovered_Close (QueueCovered_of_eq h rfl rfl)

theorem QueueCovered_DoWrite {env : Env} {s s1 : BoostConnection} (h : QueueCovered s)
    (hs : DoWrite env s = some s1) : QueueCovered s1 := by
  have hw : s.m_outgoingQueue ≠ [] → s.m_writeInProgress = true := h
  unfold DoWrite at hs
  cases hq : s.m_outgoingQueue with
  | nil => simp [hq] at hs
  | cons f rest =>
    have hw1 : s.m_writeInProgress = true := hw (by simp [hq])
    cases hE : s.m_pEncryption with
    | none =>
      simp [hq, hE, submit] at hs
      subst hs
      simp [QueueCovered, hw1]
    | some c =>
      simp only [hq, hE] at hs
      split at hs
      · split at hs
        · simp at hs
        · simp [submit] at hs
          subst hs
          simp [QueueCovered, hw1]
      · simp [submit] at hs
        subst hs
        simp [QueueCovered, hw1]

theorem QueueCovered_submit {s : BoostConnection} (h : QueueCovered s) (op : AsyncOp) :
    QueueCovered (submit s op) :=
  QueueCovered_of_eq h rfl rfl

theorem QueueCovered_Read {s : BoostConnection} (h : QueueCovered s) :
    QueueCovered (Read s) :=
  QueueCovered_of_eq h rfl rfl

theorem QueueCovered_SetSharedSecret {env : Env} {s : BoostConnection} (h : QueueCovered s)
    (secret : List Nat) (aClient : Bool) :
    QueueCovered (SetSharedSecret env s secret aClient) := by
  cases aClient <;> exact QueueCovered_of_eq h rfl rfl

theorem QueueCovered_HandleHandshake {env : Env} {s : BoostConnection} (h : QueueCovered s)
    (b : List Nat) : QueueCovered (HandleHandshake env s b) := by
  unfold HandleHandshake
  simp only
  split
  · split
    · exact QueueCovered_Close h
    · exact QueueCovered_Write (QueueCovered_SetSharedSecret h _ _) _
  · split
    · split
      · exact QueueCovered_of_eq h rfl rfl
      · exact QueueCovered_Close h
    · exact QueueCovered_Close h

theorem QueueCovered_HandleReadBody {env : Env} {s : BoostConnection} (h : QueueCovered s)
    (e : Bool) (n : Nat) : QueueCovered (HandleReadBody env s e n) := by
  have h1 : QueueCovered { s with m_outstandingTasks := s.m_outstandingTasks - 1 } :=
    QueueCovered_of_eq h rfl rfl
  unfold HandleReadBody
  simp only
  split
  · exact QueueCovered_Close h1
  · split
    · split
      · exact QueueCovered_of_eq h rfl rfl
      · exact QueueCovered_Read (QueueCovered_HandleHandshake h1 _)
    · exact QueueCovered_Read (QueueCovered_HandleHandshake h1 _)

theorem QueueCovered_HandleReadEncryptionBody {env : Env} {s : BoostConnection} (e : Bool)
    (h : QueueCovered s) (n : Nat) : QueueCovered (HandleReadEncryptionBody env s e n) := by
  have h1 : QueueCovered { s with m_outstandingTasks := s.m_outstandingTasks - 1 } :=
    QueueCovered_of_eq h rfl rfl
  unfold HandleReadEncryptionBody
  simp only
  split
  · exact QueueCovered_Close h1
  · split
    · exact QueueCovered_Close h1
    · intro _
      cases ‹Bool› <;> rfl

theorem QueueCovered_HandleReadHeader {s : BoostConnection} (h : QueueCovered s)
    (e : Bool) (n : Nat) : QueueCovered (HandleReadHeader s e n) := by
  have h1 : QueueCovered { s with m_outstandingTasks := s.m_outstandingTasks - 1 } :=
    QueueCovered_of_eq h rfl rfl
  unfold HandleReadHeader
  simp only
  split
  · exact QueueCovered_Close h1
  · exact QueueCovered_of_eq h rfl rfl

theorem QueueCovered_HandleReadEncryptionHeader {s : BoostConnection} (h : QueueCovered s)
    (e : Bool) (n : Nat) : QueueCovered (HandleReadEncryptionHeader s e n) := by
  have h1 : QueueCovered { s with m_outstandingTasks := s.m_outstandingTasks - 1 } :=
    QueueCovered_of_eq h rfl rfl
  unfold HandleReadEncryptionHeader
  simp only
  split
  · exact QueueCovered_Close h1
  · exact QueueCovered_of_eq h rfl rfl

theorem QueueCovered_HandleConnect {env : Env} {s : BoostConnection} (h : QueueCovered s)
    (e : Bool) : QueueCovered (HandleConnect env s e) := by
  unfold HandleConnect
  simp only
  split
  · unfold StartEncryptionHandshake
    exact QueueCovered_of_eq
      (QueueCovered_Write (s := { s with m_outstandingTasks := s.m_outstandingTasks - 1
                                         m_connected := true })
        (QueueCovered_of_eq h rfl rfl) _) rfl rfl
  · exact QueueCovered_Close (QueueCovered_of_eq h rfl rfl)

theorem QueueCovered_HandleResolve {s : BoostConnection} (h : QueueCovered s)
    (e : Bool) : QueueCovered (HandleResolve s e) := by
  unfold HandleResolve
  simp only
  split
  · exact QueueCovered_of_eq h rfl rfl
  · exact QueueCovered_Close (QueueCovered_of_eq h rfl rfl)

theorem QueueCovered_complete {s s1 : BoostConnection} (h : QueueCovered s) {op : AsyncOp}
    (hs : complete s op = some s1) : QueueCovered s1 := by
  unfold complete at hs
  split at hs
  · cases hs; exact QueueCovered_of_eq h rfl rfl
  · cases hs

theorem QueueCovered_step {env : Env} {s s1 : BoostConnection} (h : QueueCovered s)
    (ev : Event) (hs : step env s ev = some s1) : QueueCovered s1 := by
  cases ev with
  | Connect => cases hs; exact QueueCovered_of_eq h rfl rfl
  | Accept now => cases hs; exact QueueCovered_of_eq h rfl rfl
  | Write b => cases hs; exact QueueCovered_Write h b
  | Consume now =>
    cases hs
    unfold Consume
    split <;> exact QueueCovered_of_eq h rfl rfl
  | IsConnected now =>
    cases hs
    unfold IsConnected
    simp only
    split
    · exact QueueCovered_Close h
    · exact h
  | Close => cases hs; exact QueueCovered_Close h
  | HandleResolve e =>
    simp only [step, Option.map_eq_some'] at hs
    obtain ⟨s0, h0, rfl⟩ := hs
    exact QueueCovered_HandleResolve (QueueCovered_complete h h0) e
  | HandleConnect e =>
    simp only [step, Option.map_eq_some'] at hs
    obtain ⟨s0, h0, rfl⟩ := hs
    exact QueueCovered_HandleConnect (QueueCovered_complete h h0) e
  | HandleReadHeader e n len =>
    simp only [step] at hs
    split at hs
    · simp only [Option.map_eq_some'] at hs
      obtain ⟨s0, h0, rfl⟩ := hs
      have hc : QueueCovered { s0 with m_incomingLength := len } :=
        QueueCovered_of_eq (QueueCovered_complete h h0) rfl rfl
      exact QueueCovered_HandleReadHeader hc e n
    · cases hs
  | HandleReadBody size e data =>
    simp only [step] at hs
    split at hs
    · simp only [Option.map_eq_some'] at hs
      obtain ⟨s0, h0, rfl⟩ := hs
      have hc : QueueCovered { s0 with m_buffer := store s0.m_buffer data } :=
        QueueCovered_of_eq (QueueCovered_complete h h0) rfl rfl
      exact QueueCovered_HandleReadBody hc e _
    · cases hs
  | HandleReadEncryptionHeader e n len =>
    simp only [step] at hs
    split at hs
    · simp only [Option.map_eq_some'] at hs
      obtain ⟨s0, h0, rfl⟩ := hs
      have hc : QueueCovered { s0 with m_incomingLength := len } :=
        QueueCovered_of_eq (QueueCovered_complete h h0) rfl rfl
      exact QueueCovered_HandleReadEncryptionHeader hc e n
    · cases hs
  | HandleReadEncryptionBody size e data =>
    simp only [step] at hs
    split at hs
    · simp only [Option.map_eq_some'] at hs
      obtain ⟨s0, h0, rfl⟩ := hs
      have hc : QueueCovered { s0 with m_buffer := store s0.m_buffer data } :=
        QueueCovered_of_eq (QueueCovered_complete h h0) rfl rfl
      exact QueueCovered_HandleReadEncryptionBody e hc _
    · cases hs
  | HandleWrite data e =>
    simp only [step, Option.bind_eq_some] at hs
    obtain ⟨s0, h0, h1⟩ := hs
    exact QueueCovered_HandleWrite (QueueCovered_complete h h0) e h1
  | DoWrite =>
    simp only [step, Option.bind_eq_some] at hs
    obtain ⟨s0, h0, h1⟩ := hs
    exact QueueCovered_DoWrite (QueueCovered_complete h h0) h1

theorem Reachable.queueCovered {env : Env} {s : BoostConnection} (h : Reachable env s) :
    QueueCovered s := by
  induction h with
  | new aId => intro hq; exact absurd rfl hq
  | step ev _ hs ih => exact QueueCovered_step ih ev hs

/-! ## Write -/

/-- C1: in every state a connection can be in, `Write` on a connection that is not connected
changes nothing (queue, write-in-progress flag, task counter, pending operations); on a
connected one it appends the frame behind the queued ones, and it posts a `DoWrite`, sets the
write-in-progress flag and counts one more task exactly when the flag was not set before. -/
theorem Write_contract (env : Env) (s : BoostConnection) (hs : Reachable env s)
    (frame : List Nat) :
    (s.m_connected = false → Write s frame = s) ∧
    (s.m_connected = true →
      (Write s frame).m_outgoingQueue = s.m_outgoingQueue ++ [frame] ∧
      (s.m_writeInProgress = false →
        Write s frame =
          { s with m_outgoingQueue := s.m_outgoingQueue ++ [frame]
                   m_writeInProgress := true
                   m_outstandingTasks := s.m_outstandingTasks + 1
                   io_pending := s.io_pending ++ [AsyncOp.post_DoWrite] }) ∧
      (s.m_writeInProgress = true →
        Write s frame = { s with m_outgoingQueue := s.m_outgoingQueue ++ [frame] })) := by
  have hcov : s.m_outgoingQueue ≠ [] → s.m_writeInProgress = true := hs.queueCovered
  refine ⟨fun hc => by simp [Write, hc], fun hc => ⟨?_, fun hw => ?_, fun hw => ?_⟩⟩
  · cases hw : s.m_writeInProgress <;> cases hq : s.m_outgoingQueue <;>
      simp [Write, submit, hc, hw, hq]
  · have hq : s.m_outgoingQueue = [] := by
      by_contra hne
      rw [hcov hne] at hw
      cases hw
    simp [Write, submit, hc, hw, hq]
  · simp [Write, hc, hw]

/-- The contract of `Write` on a connection that has just accepted its peer. -/
theorem Write_contract_witness :
    Reachable sampleEnv (Accept (BoostConnection.new 0) 5) ∧
    (Write (Accept (BoostConnection.new 0) 5) [3, 0, 0, 0, 65, 66, 67]).m_outgoingQueue
      = [[3, 0, 0, 0, 65, 66, 67]] ∧
    (Write (Accept (BoostConnection.new 0) 5) [3, 0, 0, 0, 65, 66, 67]).io_pending
      = [AsyncOp.async_read 4 ReadHandler.HandleReadHeader, AsyncOp.post_DoWrite] := by
  have hr : Reachable sampleEnv (Accept (BoostConnection.new 0) 5) :=
    Reachable.step (Event.Accept 5) (Reachable.new 0) rfl
  have h := (Write_contract sampleEnv (Accept (BoostConnection.new 0) 5) hr
    [3, 0, 0, 0, 65, 66, 67]).2 rfl
  refine ⟨hr, h.1, ?_⟩
  rw [h.2.1 rfl]
  rfl

/-! ## The length header -/

/-- C2, as the code has it: a header that arrives with no error and in full, declaring a
length of 8192 or more, closes the connection, leaves the receive buffer as it was and submits
nothing; one declaring less than 8192 leaves the connected flag alone, sizes the receive
buffer to the declared length and submits one body read of exactly that many bytes. -/
theorem HandleReadHeader_cap (s : BoostConnection) (L : Nat) :
    (8192 ≤ L →
      (HandleReadHeader { s with m_incomingLength := L } false sizeofIncomingLength).m_connected
        = false ∧
      (HandleReadHeader { s with m_incomingLength := L } false sizeofIncomingLength).m_buffer
        = s.m_buffer ∧
      (HandleReadHeader { s with m_incomingLength := L } false sizeofIncomingLength).io_pending
        = s.io_pending) ∧
    (L < 8192 →
      (HandleReadHeader { s with m_incomingLength := L } false sizeofIncomingLength).m_connected
        = s.m_connected ∧
      (HandleReadHeader { s with m_incomingLength := L } false sizeofIncomingLength).socket_closes
        = s.socket_closes ∧
      (HandleReadHeader { s with m_incomingLength := L } false sizeofIncomingLength).m_buffer.length
        = L ∧
      (HandleReadHeader { s with m_incomingLength := L } false sizeofIncomingLength).io_pending
        = s.io_pending ++ [AsyncOp.async_read L ReadHandler.HandleReadBody]) := by
  constructor
  · intro hL
    have hc : decide (L ≥ 8192) = true := by simpa using hL
    simp only [HandleReadHeader, hc, Bool.or_true, if_true]
    refine ⟨Close_connected _, ?_, ?_⟩ <;> (unfold Close; split <;> rfl)
  · intro hL
    have hc : decide (L ≥ 8192) = false := by simpa using hL
    simp [HandleReadHeader, hc, submit, resize]
    omega

/-- A header of 0x3000 closes the connection and reads no payload; one of 100 is followed
by a body read of 100 bytes. -/
theorem HandleReadHeader_cap_witness :
    (HandleReadHeader { Accept (BoostConnection.new 0) 0 with m_incomingLength := 0x3000 }
        false sizeofIncomingLength).m_connected = false ∧
    (HandleReadHeader { BoostConnection.new 0 with m_incomingLength := 100 }
        false sizeofIncomingLength).io_pending
      = [AsyncOp.async_read 100 ReadHandler.HandleReadBody] :=
  ⟨((HandleReadHeader_cap (Accept (BoostConnection.new 0) 0) 0x3000).1 (by decide)).1,
   ((HandleReadHeader_cap (BoostConnection.new 0) 100).2 (by decide)).2.2.2⟩

/-- C2 as stated fails at L = 8192: an accepted connection whose first header declares
exactly 8192 bytes is closed and no body read is submitted, although 8192 does not exceed
the maximum of 8192. -/
theorem HandleReadHeader_8192_closes :
    ∃ s1, run sampleEnv (BoostConnection.new 0)
        [Event.Accept 0, Event.HandleReadHeader false 4 8192] = some s1 ∧
      s1.m_connected = false ∧ s1.io_pending = [] ∧ s1.m_incomingLength ≤ 8192 :=
  ⟨_, rfl, rfl, rfl, by decide⟩

/-! ## The handshake confirmation -/

/-- C3: on a connected connection that is not encrypted yet, a handshake frame of type 1
with the magic 0x12345678 sets the encrypted flag, appends one null entry to the incoming
queue and changes nothing else (the connection stays connected); with any other magic the
connection ends not connected, still not encrypted, its incoming queue untouched; so it does
for any frame type other than 0 and 1. -/
theorem HandleHandshake_confirmation (env : Env) (s : BoostConnection) (apBuffer : List Nat)
    (hc : s.m_connected = true) (he : s.m_encrypted = false) :
    ((env.Read_uint8 apBuffer).1 = 1 →
      (env.Read_uint32 (env.Read_uint8 apBuffer).2).1 = 0x12345678 →
      HandleHandshake env s apBuffer =
        { s with m_encrypted := true, m_incomingQueue := s.m_incomingQueue ++ [none] } ∧
      (HandleHandshake env s apBuffer).m_connected = true) ∧
    ((env.Read_uint8 apBuffer).1 = 1 →
      (env.Read_uint32 (env.Read_uint8 apBuffer).2).1 ≠ 0x12345678 →
      (HandleHandshake env s apBuffer).m_connected = false ∧
      (HandleHandshake env s apBuffer).m_encrypted = false ∧
      (HandleHandshake env s apBuffer).m_incomingQueue = s.m_incomingQueue) ∧
    ((env.Read_uint8 apBuffer).1 ≠ 0 → (env.Read_uint8 apBuffer).1 ≠ 1 →
      (HandleHandshake env s apBuffer).m_connected = false ∧
      (HandleHandshake env s apBuffer).m_encrypted = false ∧
      (HandleHandshake env s apBuffer).m_incomingQueue = s.m_incomingQueue) := by
  refine ⟨fun ht hm => ?_, fun ht hm => ?_, fun h0 h1 => ?_⟩
  · simp [HandleHandshake, ht, hm, EnableEncryption, hc]
  · simp [HandleHandshake, ht, hm, Close, hc, he]
  · simp [HandleHandshake, h0, h1, Close, hc, he]

/-- The three cases of the confirmation on an accepted connection: the right magic, a wrong
magic, and frame type 2. -/
theorem HandleHandshake_confirmation_witness :
    (HandleHandshake sampleEnv (Accept (BoostConnection.new 0) 0)
        [1, 0x78, 0x56, 0x34, 0x12]).m_incomingQueue = [none] ∧
    (HandleHandshake sampleEnv (Accept (BoostConnection.new 0) 0)
        [1, 0x79, 0x56, 0x34, 0x12]).m_connected = false ∧
    (HandleHandshake sampleEnv (Accept (BoostConnection.new 0) 0)
        [2, 0x78, 0x56, 0x34, 0x12]).m_connected = false := by
  have h := HandleHandshake_confirmation sampleEnv (Accept (BoostConnection.new 0) 0)
  refine ⟨?_, ((h [1, 0x79, 0x56, 0x34, 0x12] rfl rfl).2.1 rfl (by decide)).1,
    ((h [2, 0x78, 0x56, 0x34, 0x12] rfl rfl).2.2 (by decide) (by decide)).1⟩
  rw [((h [1, 0x78, 0x56, 0x34, 0x12] rfl rfl).1 rfl (by decide)).1]
  rfl

/-! ## The keystreams of the two ends -/

theorem ProcessData_length (env : Env) (c : Salsa20) (data : List Nat) :
    (ProcessData env c data).1.length = data.length := by
  simp [ProcessData]

theorem ProcessData_twice (env : Env) (c : Salsa20) (data : List Nat) :
    (ProcessData env c (ProcessData env c data).1).1 = data := by
  apply List.ext_getElem
  · simp [ProcessData]
  · intro i h1 h2
    simp [ProcessData, List.getElem_zipWith, Nat.xor_cancel_right]

theorem ProcessData_advance (env : Env) (c : Salsa20) (data : List Nat) :
    (ProcessData env c (ProcessData env c data).1).2 = (ProcessData env c data).2 := by
  simp [ProcessData]

theorem processAll_twice (env : Env) (payloads : List (List Nat)) :
    ∀ c : Salsa20, processAll env c (processAll env c payloads) = payloads := by
  induction payloads with
  | nil => intro c; rfl
  | cons p ps ih =>
    intro c
    simp only [processAll]
    rw [ProcessData_twice, ProcessData_advance, ih]

/-- C4: for a shared secret of at least 16 bytes, the cipher the initiator sends with is the
cipher the responder receives with, the cipher the responder sends with is the cipher the
initiator receives with, all four are keyed with the SHA-256 of the secret, the two nonces
are the first and the second 8 bytes of the secret, and payloads encrypted one after the
other by one end's send cipher come back unchanged from the other end's receive cipher. -/
theorem SetSharedSecret_lines_up (env : Env) (c r : BoostConnection) (secret : List Nat)
    (h : 16 ≤ secret.length) :
    ∃ up down : Salsa20,
      (SetSharedSecret env c secret true).m_pEncryption = some up ∧
      (SetSharedSecret env r secret false).m_pDecryption = some up ∧
      (SetSharedSecret env r secret false).m_pEncryption = some down ∧
      (SetSharedSecret env c secret true).m_pDecryption = some down ∧
      up.key = env.sha256 secret ∧ down.key = env.sha256 secret ∧
      up.iv.length = 8 ∧ down.iv.length = 8 ∧ up.iv ++ down.iv = secret.take 16 ∧
      up.pos = 0 ∧ down.pos = 0 ∧
      ∀ payloads : List (List Nat),
        processAll env up (processAll env up payloads) = payloads ∧
        processAll env down (processAll env down payloads) = payloads := by
  refine ⟨⟨env.sha256 secret, secret.take 8, 0⟩,
    ⟨env.sha256 secret, (secret.drop 8).take 8, 0⟩,
    rfl, rfl, rfl, rfl, rfl, rfl, ?_, ?_, ?_, rfl, rfl, fun payloads => ?_⟩
  · simp only [List.length_take]; omega
  · simp only [List.length_take, List.length_drop]; omega
  · have h16 : (16 : Nat) = 8 + 8 := rfl
    rw [h16, List.take_add]
  · exact ⟨processAll_twice env payloads _, processAll_twice env payloads _⟩

/-- The two ends of a 16-byte secret: the initiator's send cipher is the responder's receive
cipher. -/
theorem SetSharedSecret_lines_up_witness :
    (SetSharedSecret sampleEnv (BoostConnection.new 0) (List.range 16) true).m_pEncryption
      = (SetSharedSecret sampleEnv (BoostConnection.new 1) (List.range 16) false).m_pDecryption
    := by
  obtain ⟨up, down, h1, h2, _⟩ := SetSharedSecret_lines_up sampleEnv (BoostConnection.new 0)
    (BoostConnection.new 1) (List.range 16) (by decide)
  rw [h1, h2]

/-! ## Liveness, closing and consuming -/

/-- C6: closing twice is closing once: the second `Close` changes nothing and does not
release the socket again, after `Close` the connection is not connected, and `Close` on a
connection that is not connected changes nothing. -/
theorem Close_idempotent (s : BoostConnection) :
    Close (Close s) = Close s ∧
    (Close s).m_connected = false ∧
    (Close (Close s)).socket_closes = (Close s).socket_closes ∧
    (Close (Close s)).socket_closes ≤ s.socket_closes + 1 ∧
    (s.m_connected = false → Close s = s) := by
  have h2 : Close (Close s) = Close s := by
    have hc := Close_connected s
    generalize Close s = u at hc
    simp [Close, hc]
  refine ⟨h2, Close_connected s, by rw [h2], ?_, fun h => by simp [Close, h]⟩
  rw [h2]
  unfold Close
  split
  · exact le_refl _
  · exact Nat.le_succ _

theorem consumeMany_all (now : Int) (q : List (Option (List Nat))) :
    ∀ s : BoostConnection, s.m_incomingQueue = q →
      (consumeMany s now q.length).1 = q.map (fun b => (true, b)) ∧
      (consumeMany s now q.length).2.m_incomingQueue = [] := by
  induction q with
  | nil => intro s hs; exact ⟨rfl, hs⟩
  | cons front rest ih =>
    intro s hs
    have hC : Consume s now
        = (true, front, { s with m_lastEvent := now, m_incomingQueue := rest }) := by
      simp [Consume, hs]
    have h := ih { s with m_lastEvent := now, m_incomingQueue := rest } rfl
    simp only [List.length_cons, consumeMany, hC, List.map_cons]
    exact ⟨by rw [h.1], h.2⟩

/-- C7: `Consume` on an empty incoming queue returns false and a null buffer and changes
nothing; on a non-empty one it returns true and the front entry, leaves the rest of the
queue in order and sets the activity timestamp to the instant of the call.  So as many calls
as the queue has entries return the entries front to back, and `HandleReadBody` appends at
the back, so that is the order in which the read pipeline pushed them. -/
theorem Consume_fifo (s : BoostConnection) (now : Int) :
    (s.m_incomingQueue = [] → Consume s now = (false, none, s)) ∧
    (∀ front rest, s.m_incomingQueue = front :: rest →
      Consume s now = (true, front, { s with m_lastEvent := now, m_incomingQueue := rest })) ∧
    (consumeMany s now s.m_incomingQueue.length).1
      = s.m_incomingQueue.map (fun b => (true, b)) ∧
    (consumeMany s now s.m_incomingQueue.length).2.m_incomingQueue = [] ∧
    (∀ (env : Env) (c : Salsa20), s.m_pDecryption = some c → s.m_encrypted = true →
      (HandleReadBody env s false s.m_incomingLength).m_incomingQueue
        = s.m_incomingQueue ++ [some (ProcessData env c s.m_buffer).1]) := by
  refine ⟨fun h => by simp [Consume, h], fun front rest h => by simp [Consume, h],
    (consumeMany_all now _ s rfl).1, (consumeMany_all now _ s rfl).2, ?_⟩
  intro env c hd he
  simp [HandleReadBody, hd, he, IsEncrypted, Read, submit]

/-! ## What `DoWrite` hands to the socket -/

/-- C8: with a frame of at least 4 bytes at the front of the outgoing queue, `DoWrite`
submits one write of a buffer as long as the frame whose first 4 bytes are the frame's first
4 bytes; when a send cipher is present and the connection is encrypted the bytes from offset
4 on are the cipher's output for the frame's bytes from offset 4 on, and otherwise the buffer
is the frame and nothing but the pending operations changes. -/
theorem DoWrite_header_plain (env : Env) (s : BoostConnection) (frame : List Nat)
    (rest : List (List Nat)) (hq : s.m_outgoingQueue = frame :: rest)
    (h4 : 4 ≤ frame.length) :
    ∃ (sent : List Nat) (s1 : BoostConnection),
      DoWrite env s = some s1 ∧
      s1.io_pending = s.io_pending ++ [AsyncOp.async_write sent] ∧
      sent.length = frame.length ∧
      sent.take 4 = frame.take 4 ∧
      (∀ c, s.m_pEncryption = some c → s.m_encrypted = true →
        sent.drop 4 = (ProcessData env c (frame.drop 4)).1) ∧
      (s.m_pEncryption = none ∨ s.m_encrypted = false →
        sent = frame ∧ s1 = submit s (AsyncOp.async_write frame)) := by
  have plain : ∃ (sent : List Nat) (s1 : BoostConnection),
      some (submit s (AsyncOp.async_write frame)) = some s1 ∧
      s1.io_pending = s.io_pending ++ [AsyncOp.async_write sent] ∧
      sent.length = frame.length ∧ sent.take 4 = frame.take 4 ∧
      sent = frame ∧ s1 = submit s (AsyncOp.async_write frame) :=
    ⟨frame, _, rfl, rfl, rfl, rfl, rfl, rfl⟩
  cases hE : s.m_pEncryption with
  | none =>
    obtain ⟨sent, s1, e1, e2, e3, e4, e5, e6⟩ := plain
    refine ⟨sent, s1, ?_, e2, e3, e4, fun c hc => ?_, fun _ => ⟨e5, e6⟩⟩
    · simp only [DoWrite, hq, hE]; exact e1
    · cases hc
  | some c =>
    cases he : s.m_encrypted with
    | false =>
      obtain ⟨sent, s1, e1, e2, e3, e4, e5, e6⟩ := plain
      refine ⟨sent, s1, ?_, e2, e3, e4, fun c hc hn => ?_, fun _ => ⟨e5, e6⟩⟩
      · simp [DoWrite, hq, hE, IsEncrypted, he, ← e1]
      · cases hn
    | true =>
      have hlt : ¬ frame.length < 4 := not_lt.mpr h4
      refine ⟨frame.take 4 ++ (ProcessData env c (frame.drop 4)).1,
        submit { s with m_pEncryption := some (ProcessData env c (frame.drop 4)).2
                        m_outgoingQueue :=
                          (frame.take 4 ++ (ProcessData env c (frame.drop 4)).1) :: rest }
          (AsyncOp.async_write (frame.take 4 ++ (ProcessData env c (frame.drop 4)).1)),
        ?_, ?_, ?_, ?_, ?_, ?_⟩
      · simp only [DoWrite, hq, hE, IsEncrypted, he, if_true, hlt, if_false]
      · rfl
      · simp only [List.length_append, List.length_take, ProcessData_length,
          List.length_drop]
        omega
      · exact List.take_left' (by simp only [List.length_take]; omega)
      · intro c1 hc1 _
        cases hc1
        exact List.drop_left' (by simp only [List.length_take]; omega)
      · intro h
        rcases h with h | h <;> cases h

/-- An encrypted connection sending a 6-byte frame: the 4 header bytes go out as queued. -/
theorem DoWrite_header_plain_witness :
    ∃ (sent : List Nat) (s1 : BoostConnection),
      DoWrite sampleEnv
        { BoostConnection.new 0 with
            m_connected := true
            m_encrypted := true
            m_writeInProgress := true
            m_pEncryption := some ⟨[1], [2], 0⟩
            m_outgoingQueue := [[2, 0, 0, 0, 65, 66]] } = some s1 ∧
      s1.io_pending = [AsyncOp.async_write sent] ∧
      sent.take 4 = [2, 0, 0, 0] ∧ sent.length = 6 := by
  obtain ⟨sent, s1, h1, h2, h3, h4, _⟩ := DoWrite_header_plain sampleEnv
    { BoostConnection.new 0 with
        m_connected := true
        m_encrypted := true
        m_writeInProgress := true
        m_pEncryption := some ⟨[1], [2], 0⟩
        m_outgoingQueue := [[2, 0, 0, 0, 65, 66]] }
    [2, 0, 0, 0, 65, 66] [] rfl (by decide)
  exact ⟨sent, s1, h1, h2, h4, h3⟩

/-! ## The write pipeline and the task counter along the initiator's handshake -/

set_option maxRecDepth 100000 in
/-- C9, what the code does: when the peer's key exchange payload is read before the write of
the first handshake frame has completed, `HandleReadEncryptionBody` submits a second write:
two writes are in flight, both of the first frame, and the confirmation frame waits behind
it in the queue.  After both completions the queue is empty with a `DoWrite` still posted,
which then calls `front` on an empty queue. -/
theorem HandleReadEncryptionBody_second_write :
    ∃ s1, run sampleEnv (BoostConnection.new 0) earlyReplyTrace = some s1 ∧
      writesInFlight s1 = 2 ∧
      s1.io_pending = [AsyncOp.async_write sampleHello, AsyncOp.async_write sampleHello,
        AsyncOp.async_read 4 ReadHandler.HandleReadHeader] ∧
      s1.m_outgoingQueue = [sampleHello, sampleConfirm] ∧
      run sampleEnv s1 [Event.HandleWrite sampleHello false,
        Event.HandleWrite sampleHello false, Event.DoWrite] = none :=
  ⟨_, rfl, rfl, rfl, rfl, rfl⟩

set_option maxRecDepth 100000 in
/-- C10, what the code does: `Connect` submits the resolve and leaves the counter at 0, and
the write submitted by `HandleReadEncryptionBody` is not counted while its `HandleWrite`
counts it down: at the end of the path one read is pending and the counter is -1. -/
theorem outstandingTasks_miscounts :
    ∃ s1 s8, run sampleEnv (BoostConnection.new 0) [Event.Connect] = some s1 ∧
      s1.m_outstandingTasks = 0 ∧ s1.io_pending = [AsyncOp.async_resolve] ∧
      run sampleEnv (BoostConnection.new 0) orderlyTrace = some s8 ∧
      s8.m_outstandingTasks = -1 ∧
      s8.io_pending = [AsyncOp.async_read 4 ReadHandler.HandleReadHeader] :=
  ⟨_, _, rfl, rfl, rfl, rfl, rfl, rfl⟩

/-! ## The encrypted flag -/

theorem Close_encrypted (s : BoostConnection) : (Close s).m_encrypted = s.m_encrypted := by
  unfold Close; split <;> rfl

theorem Write_encrypted (s : BoostConnection) (b : List Nat) :
    (Write s b).m_encrypted = s.m_encrypted := by
  unfold Write submit
  simp only
  split
  · rfl
  · split <;> rfl

theorem SetSharedSecret_encrypted (env : Env) (s : BoostConnection) (secret : List Nat)
    (aClient : Bool) : (SetSharedSecret env s secret aClient).m_encrypted = s.m_encrypted := by
  cases aClient <;> rfl

theorem HandleHandshake_encrypted {env : Env} {s : BoostConnection}
    (h : s.m_encrypted = true) (b : List Nat) :
    (HandleHandshake env s b).m_encrypted = true := by
  unfold HandleHandshake
  simp only
  split
  · split
    · rw [Close_encrypted]; exact h
    · rw [Write_encrypted, SetSharedSecret_encrypted]; exact h
  · split
    · split
      · rfl
      · rw [Close_encrypted]; exact h
    · rw [Close_encrypted]; exact h

theorem HandleReadBody_encrypted {env : Env} {s : BoostConnection}
    (h : s.m_encrypted = true) (e : Bool) (n : Nat) :
    (HandleReadBody env s e n).m_encrypted = true := by
  unfold HandleReadBody
  simp only
  split
  · rw [Close_encrypted]; exact h
  · split
    · split
      · exact h
      · exact HandleHandshake_encrypted (s := { s with
          m_outstandingTasks := s.m_outstandingTasks - 1 }) h _
    · exact HandleHandshake_encrypted (s := { s with
        m_outstandingTasks := s.m_outstandingTasks - 1 }) h _

theorem HandleReadEncryptionBody_encrypted {env : Env} {s : BoostConnection}
    (h : s.m_encrypted = true) (e : Bool) (n : Nat) :
    (HandleReadEncryptionBody env s e n).m_encrypted = true := by
  unfold HandleReadEncryptionBody
  simp only
  split
  · rw [Close_encrypted]; exact h
  · split
    · rw [Close_encrypted]; exact h
    · rfl

theorem HandleReadHeader_encrypted (s : BoostConnection) (e : Bool) (n : Nat) :
    (HandleReadHeader s e n).m_encrypted = s.m_encrypted := by
  unfold HandleReadHeader
  simp only
  split
  · rw [Close_encrypted]
  · rfl

theorem HandleReadEncryptionHeader_encrypted (s : BoostConnection) (e : Bool) (n : Nat) :
    (HandleReadEncryptionHeader s e n).m_encrypted = s.m_encrypted := by
  unfold HandleReadEncryptionHeader
  simp only
  split
  · rw [Close_encrypted]
  · rfl

theorem HandleConnect_encrypted (env : Env) (s : BoostConnection) (e : Bool) :
    (HandleConnect env s e).m_encrypted = s.m_encrypted := by
  unfold HandleConnect
  simp only
  split
  · unfold StartEncryptionHandshake submit
    simp only
    rw [Write_encrypted]
  · rw [Close_encrypted]

theorem HandleResolve_encrypted (s : BoostConnection) (e : Bool) :
    (HandleResolve s e).m_encrypted = s.m_encrypted := by
  unfold HandleResolve
  simp only
  split
  · rfl
  · rw [Close_encrypted]

theorem HandleWrite_encrypted {s s1 : BoostConnection} (e : Bool)
    (hs : HandleWrite s e = some s1) : s1.m_encrypted = s.m_encrypted := by
  unfold HandleWrite at hs
  simp only at hs
  split at hs
  · split at hs
    · cases hs
    · split at hs <;> (cases hs; rfl)
  · cases hs
    rw [Close_encrypted]

theorem DoWrite_encrypted {env : Env} {s s1 : BoostConnection}
    (hs : DoWrite env s = some s1) : s1.m_encrypted = s.m_encrypted := by
  unfold DoWrite at hs
  split at hs
  · cases hs
  · split at hs
    · split at hs
      · split at hs
        · cases hs
        · cases hs; rfl
      · cases hs; rfl
    · cases hs; rfl

theorem complete_encrypted {s s1 : BoostConnection} {op : AsyncOp}
    (hs : complete s op = some s1) : s1.m_encrypted = s.m_encrypted := by
  unfold complete at hs
  split at hs
  · cases hs; rfl
  · cases hs

/-- No event clears the encrypted flag. -/
theorem step_encrypted {env : Env} {s s1 : BoostConnection} (h : s.m_encrypted = true)
    (ev : Event) (hs : step env s ev = some s1) : s1.m_encrypted = true := by
  cases ev with
  | Connect => cases hs; exact h
  | Accept now => cases hs; exact h
  | Write b => cases hs; rw [Write_encrypted]; exact h
  | Consume now =>
    cases hs
    unfold Consume
    split <;> exact h
  | IsConnected now =>
    cases hs
    unfold IsConnected
    simp only
    split
    · rw [Close_encrypted]; exact h
    · exact h
  | Close => cases hs; rw [Close_encrypted]; exact h
  | HandleResolve e =>
    simp only [step, Option.map_eq_some'] at hs
    obtain ⟨s0, h0, rfl⟩ := hs
    rw [HandleResolve_encrypted, complete_encrypted h0]; exact h
  | HandleConnect e =>
    simp only [step, Option.map_eq_some'] at hs
    obtain ⟨s0, h0, rfl⟩ := hs
    rw [HandleConnect_encrypted, complete_encrypted h0]; exact h
  | HandleReadHeader e n len =>
    simp only [step] at hs
    split at hs
    · simp only [Option.map_eq_some'] at hs
      obtain ⟨s0, h0, rfl⟩ := hs
      rw [HandleReadHeader_encrypted]
      exact (complete_encrypted h0).trans h
    · cases hs
  | HandleReadBody size e data =>
    simp only [step] at hs
    split at hs
    · simp only [Option.map_eq_some'] at hs
      obtain ⟨s0, h0, rfl⟩ := hs
      have hc : ({ s0 with m_buffer := store s0.m_buffer data } : BoostConnection).m_encrypted
          = true := (complete_encrypted h0).trans h
      exact HandleReadBody_encrypted hc e _
    · cases hs
  | HandleReadEncryptionHeader e n len =>
    simp only [step] at hs
    split at hs
    · simp only [Option.map_eq_some'] at hs
      obtain ⟨s0, h0, rfl⟩ := hs
      rw [HandleReadEncryptionHeader_encrypted]
      exact (complete_encrypted h0).trans h
    · cases hs
  | HandleReadEncryptionBody size e data =>
    simp only [step] at hs
    split at hs
    · simp only [Option.map_eq_some'] at hs
      obtain ⟨s0, h0, rfl⟩ := hs
      have hc : ({ s0 with m_buffer := store s0.m_buffer data } : BoostConnection).m_encrypted
          = true := (complete_encrypted h0).trans h
      exact HandleReadEncryptionBody_encrypted hc e _
    · cases hs
  | HandleWrite data e =>
    simp only [step, Option.bind_eq_some] at hs
    obtain ⟨s0, h0, h1⟩ := hs
    rw [HandleWrite_encrypted e h1, complete_encrypted h0]; exact h
  | DoWrite =>
    simp only [step, Option.bind_eq_some] at hs
    obtain ⟨s0, h0, h1⟩ := hs
    rw [DoWrite_encrypted h1, complete_encrypted h0]; exact h

/-- The initiator's handler sets the encrypted flag only with a non-empty agreed secret and
both ciphers in place. -/
theorem HandleReadEncryptionBody_sets_with_secret (env : Env) (s : BoostConnection)
    (e : Bool) (n : Nat) (h0 : s.m_encrypted = false)
    (h1 : (HandleReadEncryptionBody env s e n).m_encrypted = true) :
    (env.Agree s.m_buffer).length ≠ 0 ∧
    (HandleReadEncryptionBody env s e n).m_pEncryption.isSome = true ∧
    (HandleReadEncryptionBody env s e n).m_pDecryption.isSome = true := by
  unfold HandleReadEncryptionBody at h1 ⊢
  simp only at h1 ⊢
  split at h1
  · rw [Close_encrypted] at h1
    rw [h0] at h1; cases h1
  · split at h1
    · rw [Close_encrypted] at h1
      rw [h0] at h1; cases h1
    · rename_i hne
      rename_i herr
      rw [if_neg herr, if_neg hne]
      exact ⟨hne, rfl, rfl⟩

set_option maxRecDepth 100000 in
/-- C11, what the code does: a responder whose peer sends the confirmation frame first, with
no key exchange before it, ends with the encrypted flag set while no secret was agreed and
neither cipher exists; a second confirmation frame is handled the same way again and pushes
a second sentinel, and a frame written afterwards goes to the socket unencrypted. -/
theorem HandleHandshake_confirms_without_secret :
    ∃ s1 s2 s3, run sampleEnv (BoostConnection.new 0) confirmFirstTrace = some s1 ∧
      s1.m_encrypted = true ∧ s1.m_pEncryption = none ∧ s1.m_pDecryption = none ∧
      s1.m_connected = true ∧ s1.m_incomingQueue = [none] ∧
      run sampleEnv s1 [Event.HandleReadHeader false 4 5,
        Event.HandleReadBody 5 false [1, 0x78, 0x56, 0x34, 0x12]] = some s2 ∧
      s2.m_incomingQueue = [none, none] ∧
      run sampleEnv s2 [Event.Write [1, 0, 0, 0, 65], Event.DoWrite] = some s3 ∧
      s3.io_pending = [AsyncOp.async_read 4 ReadHandler.HandleReadHeader,
        AsyncOp.async_write [1, 0, 0, 0, 65]] :=
  ⟨_, _, _, rfl, rfl, rfl, rfl, rfl, rfl, rfl, rfl, rfl, rfl⟩

end SkyrimOnline

/-! ## `Skyrim::Vector::Remove` -/

namespace Skyrim

theorem Vector.shift_spec {T : Type} (bound : Nat) (hb : bound < 4294967296) :
    ∀ (fuel i : Nat) (data : List T), i + fuel = bound → bound < data.length →
      ∃ out, Vector.shift bound fuel i data = some out ∧ out.length = data.length ∧
        ∀ j, out[j]? = if i ≤ j ∧ j < bound then data[j + 1]? else data[j]? := by
  intro fuel
  induction fuel with
  | zero =>
    intro i data hi _
    refine ⟨data, rfl, rfl, fun j => ?_⟩
    have : ¬ (i ≤ j ∧ j < bound) := by omega
    rw [if_neg this]
  | succ k ih =>
    intro i data hi hlen
    have hib : i < bound := by omega
    have hmod : (i + 1) % 4294967296 = i + 1 := Nat.mod_eq_of_lt (by omega)
    have hget : data[i + 1]? = some (data[i + 1]) := List.getElem?_eq_getElem (by omega)
    have hil : i < data.length := by omega
    obtain ⟨out, h1, h2, h3⟩ := ih (i + 1) (data.set i data[i + 1]) (by omega)
      (by rw [List.length_set]; exact hlen)
    refine ⟨out, ?_, ?_, fun j => ?_⟩
    · simp only [Vector.shift, hib, if_true, hmod, hget, hil]
      exact h1
    · rw [h2, List.length_set]
    · rw [h3 j]
      by_cases hj : j = i
      · subst hj
        have c1 : ¬ (j + 1 ≤ j ∧ j < bound) := by omega
        have c2 : j ≤ j ∧ j < bound := ⟨le_refl _, hib⟩
        rw [if_neg c1, if_pos c2, List.getElem?_set_self hil, hget]
      · by_cases hc : i ≤ j ∧ j < bound
        · have c1 : i + 1 ≤ j ∧ j < bound := by omega
          rw [if_pos c1, if_pos hc, List.getElem?_set_ne (by omega)]
        · have c1 : ¬ (i + 1 ≤ j ∧ j < bound) := by omega
          rw [if_neg c1, if_neg hc, List.getElem?_set_ne (fun h => hj h.symm)]

/-- On a vector whose `size` elements lie inside its array, `Remove` at an index below the
size leaves one element less, the elements before the index in place and every later one
moved down by one. -/
theorem Vector.Remove_below_size {T : Type} (v : Vector T) (i : Nat)
    (hsize : v.size ≤ v.data.length) (h32 : v.size < 4294967296) (hi : i < v.size) :
    ∃ out, v.Remove i = some { v with data := out, size := v.size - 1 } ∧
      (∀ j, j < i → out[j]? = v.data[j]?) ∧
      (∀ j, i ≤ j → j < v.size - 1 → out[j]? = v.data[j + 1]?) := by
  have hbound : (v.size + 4294967296 - 1) % 4294967296 = v.size - 1 := by omega
  obtain ⟨out, h1, _, h3⟩ := Vector.shift_spec (T := T) (v.size - 1) (by omega)
    (v.size - 1 - i) i v.data (by omega) (by omega)
  refine ⟨out, ?_, fun j hj => ?_, fun j hj1 hj2 => ?_⟩
  · have hgt : ¬ i > v.size := by omega
    simp only [Vector.Remove, hgt, if_false, hbound, h1]
  · rw [h3 j, if_neg (by omega)]
  · rw [h3 j, if_pos ⟨hj1, hj2⟩]

/-- `Remove` at an index above the size changes nothing. -/
theorem Vector.Remove_above_size {T : Type} (v : Vector T) (i : Nat) (hi : v.size < i) :
    v.Remove i = some v := by
  simp [Vector.Remove, hi]

/-- `Remove` at the index equal to the size, on a vector that is not empty and lies inside
its array: the guard lets it pass, the loop does nothing and the size is counted down. -/
theorem Vector.Remove_at_size {T : Type} (v : Vector T) (h0 : 0 < v.size)
    (h32 : v.size < 4294967296) :
    v.Remove v.size = some { v with size := v.size - 1 } := by
  have hbound : (v.size + 4294967296 - 1) % 4294967296 = v.size - 1 := by omega
  have hfuel : v.size - 1 - v.size = 0 := by omega
  have hgt : ¬ v.size > v.size := lt_irrefl _
  simp only [Vector.Remove, hgt, if_false, hbound, hfuel, Vector.shift]

theorem Vector.shift_overrun {T : Type} (bound : Nat) (hb : bound < 4294967296) :
    ∀ (fuel i : Nat) (data : List T), i + fuel = bound → 0 < fuel → data.length ≤ bound →
      Vector.shift bound fuel i data = none := by
  intro fuel
  induction fuel with
  | zero => intro i data _ h0; exact absurd h0 (lt_irrefl 0)
  | succ k ih =>
    intro i data hi _ hlen
    have hib : i < bound := by omega
    have hmod : (i + 1) % 4294967296 = i + 1 := Nat.mod_eq_of_lt (by omega)
    by_cases hin : i + 1 < data.length
    · have hget : data[i + 1]? = some (data[i + 1]) := List.getElem?_eq_getElem hin
      have hil : i < data.length := by omega
      simp only [Vector.shift, hib, if_true, hmod, hget, hil]
      exact ih (i + 1) _ (by omega) (by omega) (by rw [List.length_set]; exact hlen)
    · have hget : data[i + 1]? = none := List.getElem?_eq_none (by omega)
      simp only [Vector.shift, hib, if_true, hmod, hget]

/-- `Remove(0)` on an empty vector, whatever array it holds: the loop runs up to the wrapped
`size - 1` and leaves the array. -/
theorem Vector.Remove_empty {T : Type} (v : Vector T) (h0 : v.size = 0)
    (hlen : v.data.length < 4294967296) : v.Remove 0 = none := by
  have hgt : ¬ 0 > v.size := by omega
  have hs : Vector.shift ((v.size + 4294967296 - 1) % 4294967296)
      ((v.size + 4294967296 - 1) % 4294967296 - 0) 0 v.data = none :=
    Vector.shift_overrun _ (by omega) _ 0 v.data (by omega) (by omega) (by omega)
  unfold Vector.Remove
  rw [if_neg hgt]
  simp only [hs]

/-- C12, what the code does: `Remove(3)` on a vector of the three elements 10, 20, 30 passes
the guard and counts the size down to 2, so the last element is gone although 3 is not a
valid index; `Remove(0)` on an empty vector passes the guard as well and its loop, bounded
by the wrapped `size - 1`, reads outside the array. -/
theorem Vector.Remove_drops_last_at_size :
    (Vector.Remove { data := [10, 20, 30], capacity := 3, size := 3 } 3
      = some { data := [10, 20, 30], capacity := 3, size := 2 }) ∧
    (Vector.subscript { data := [10, 20, 30], capacity := 3, size := 3 } 3
      = some (Except.error "Out of range !")) ∧
    (Vector.subscript { data := [10, 20, 30], capacity := 3, size := 3 } 2
      = some (Except.ok 30)) ∧
    (Vector.subscript { data := [10, 20, 30], capacity := 3, size := 2 } 2
      = some (Except.error "Out of range !")) ∧
    (Vector.Remove (Vector.new : Vector Nat) 0 = none) :=
  ⟨rfl, rfl, rfl, rfl, rfl⟩

end Skyrim
